import Mathlib

/-!
Verification development for the Timension generation-request orchestration
layer (services/geminiService.ts).  The TypeScript source is embedded
shallowly:

* the process-wide mutable credential (`manualApiKey`) becomes an explicit
  `CredState` value threaded through every operation, and `process.env.API_KEY`
  becomes an explicit `env : Option String` parameter;
* the generative-AI service is an oracle `Net` mapping each request prompt to
  an outcome (a thrown error, or a response carrying optional text / optional
  image parts); every operation returns its value together with the number of
  network requests it issued;
* JSON payloads are modelled by an inductive `Json`; `JSON.parse` is modelled
  by the executable recursive-descent parser `jsonParse` (numeric literals are
  modelled as integers and `\u` escapes are not modelled — no claim depends on
  either);
* the code runs as an ES module, hence in strict mode: assigning a property on
  a primitive value throws a TypeError, and property access on `null` or
  `undefined` throws.  These JavaScript semantics are modelled explicitly where
  the source performs `article.imageUrl = ...` / `result.timelineSteps[2]` on a
  value freshly produced by `JSON.parse`.
-/

/-! ## JSON values -/

inductive Json where
  | null
  | bool (b : Bool)
  | num (n : Int)
  | str (s : String)
  | arr (elems : List Json)
  | obj (fields : List (String × Json))

/-- Field lookup in a JSON object literal (first binding wins, as built by
`JSON.parse`, whose objects keep the last duplicate; our parser keeps one
binding per key occurrence and `lookupField` takes the first — duplicates do
not occur in any payload considered here). -/
def lookupField : List (String × Json) → String → Option Json
  | [], _ => none
  | (k, v) :: rest, key => if k = key then some v else lookupField rest key

/-- JavaScript property access `v.k`: throws (`none`) on `null`; yields the
field (or `undefined`, modelled as `some none`) on objects; yields `undefined`
on every other value (primitives are auto-boxed, arrays have no string-keyed
fields in our model). -/
def jsGet : Json → String → Option (Option Json)
  | .null, _ => none
  | .obj fields, key => some (lookupField fields key)
  | _, _ => some none

/-- Can a property be assigned on this value?  In strict mode, assignment on a
primitive (or `null`) throws a TypeError; objects and arrays accept it. -/
def canSetProp : Json → Bool
  | .obj _ => true
  | .arr _ => true
  | _ => false

/-- JavaScript indexing `v[2]` as evaluated by the source: throws (`none`) on
`null`; selects the element on arrays and the character on strings (or
`undefined` past the end, modelled `some none`); `undefined` on all other
values. -/
def jsIndex2 : Json → Option (Option Json)
  | .null => none
  | .arr l => some (l.get? 2)
  | .str s => some ((s.data.get? 2).map (fun c => Json.str (String.mk [c])))
  | _ => some none

mutual

/-- JavaScript `String(v)` as used by template-literal interpolation. -/
def jsToString : Json → String
  | .null => "null"
  | .bool true => "true"
  | .bool false => "false"
  | .num n => toString n
  | .str s => s
  | .arr l => String.intercalate "," (jsToStringList l)
  | .obj _ => "[object Object]"

def jsToStringList : List Json → List String
  | [] => []
  | j :: js => jsToString j :: jsToStringList js

end

/-- Interpolation of a possibly-`undefined` value. -/
def jsToStringU : Option Json → String
  | none => "undefined"
  | some j => jsToString j

/-! ## JSON parsing (`JSON.parse`) -/

def isJsonWs (c : Char) : Bool :=
  c = ' ' || c = '\t' || c = '\n' || c = '\r'

def skipJsonWs (l : List Char) : List Char :=
  l.dropWhile isJsonWs

/-- Unescape one string-escape character (the self-escapes first, then the
control-character codes). -/
def jsonEscape (e : Char) : Option Char :=
  if e = '"' || e = '\\' || e = '/' then some e
  else if e = 'n' then some '\n'
  else if e = 't' then some '\t'
  else if e = 'r' then some '\r'
  else if e = 'b' then some '\x08'
  else if e = 'f' then some '\x0c'
  else none

/-- Parse the body of a string literal after the opening quote; returns the
content and the remainder after the closing quote. -/
def parseStringBody : List Char → Option (List Char × List Char)
  | [] => none
  | '"' :: rest => some ([], rest)
  | '\\' :: e :: rest =>
    match jsonEscape e with
    | none => none
    | some c =>
      match parseStringBody rest with
      | none => none
      | some (s, r) => some (c :: s, r)
  | '\\' :: [] => none
  | c :: rest =>
    match parseStringBody rest with
    | none => none
    | some (s, r) => some (c :: s, r)

def digitsToNat (acc : Nat) : List Char → Nat
  | [] => acc
  | c :: rest => digitsToNat (acc * 10 + (c.toNat - '0'.toNat)) rest

/-- Parse an integer numeral (optional minus sign, one or more digits). -/
def parseIntNum (l : List Char) : Option (Int × List Char) :=
  match l with
  | '-' :: rest =>
    let (ds, r) := rest.span Char.isDigit
    if ds = [] then none else some (-(Int.ofNat (digitsToNat 0 ds)), r)
  | _ =>
    let (ds, r) := l.span Char.isDigit
    if ds = [] then none else some (Int.ofNat (digitsToNat 0 ds), r)

def isPrefixList : List Char → List Char → Bool
  | [], _ => true
  | a :: as, b :: bs => a = b && isPrefixList as bs
  | _ :: _, [] => false

mutual

/-- Recursive-descent JSON value parser, fuel-indexed so that every
definition stays structurally recursive (and hence kernel-computable). -/
def parseValue : Nat → List Char → Option (Json × List Char)
  | 0, _ => none
  | Nat.succ fuel, l =>
    match skipJsonWs l with
    | 'n' :: 'u' :: 'l' :: 'l' :: rest => some (.null, rest)
    | 't' :: 'r' :: 'u' :: 'e' :: rest => some (.bool true, rest)
    | 'f' :: 'a' :: 'l' :: 's' :: 'e' :: rest => some (.bool false, rest)
    | '"' :: rest =>
      match parseStringBody rest with
      | none => none
      | some (s, r) => some (.str (String.mk s), r)
    | '[' :: rest =>
      (match skipJsonWs rest with
       | ']' :: r => some (.arr [], r)
       | l' => match parseElems fuel l' with
               | none => none
               | some (es, r) => some (.arr es, r))
    | '\x7b' :: rest =>
      (match skipJsonWs rest with
       | '\x7d' :: r => some (.obj [], r)
       | l' => match parseMembers fuel l' with
               | none => none
               | some (fs, r) => some (.obj fs, r))
    | l' =>
      match parseIntNum l' with
      | none => none
      | some (n, r) => some (.num n, r)

/-- Parse one or more comma-separated array elements, consuming the closing
bracket. -/
def parseElems : Nat → List Char → Option (List Json × List Char)
  | 0, _ => none
  | Nat.succ fuel, l =>
    match parseValue fuel l with
    | none => none
    | some (v, r) =>
      match skipJsonWs r with
      | ',' :: r' =>
        (match parseElems fuel r' with
         | none => none
         | some (vs, r'') => some (v :: vs, r''))
      | ']' :: r' => some ([v], r')
      | _ => none

/-- Parse one or more comma-separated object members, consuming the closing
brace. -/
def parseMembers : Nat → List Char → Option (List (String × Json) × List Char)
  | 0, _ => none
  | Nat.succ fuel, l =>
    match skipJsonWs l with
    | '"' :: rest =>
      (match parseStringBody rest with
       | none => none
       | some (k, r) =>
         match skipJsonWs r with
         | ':' :: r' =>
           (match parseValue fuel r' with
            | none => none
            | some (v, r'') =>
              match skipJsonWs r'' with
              | ',' :: r3 =>
                (match parseMembers fuel r3 with
                 | none => none
                 | some (fs, r4) => some ((String.mk k, v) :: fs, r4))
              | '\x7d' :: r3 => some ([(String.mk k, v)], r3)
              | _ => none)
         | _ => none)
    | _ => none

end

/-- `JSON.parse`: the whole input must be one value surrounded only by
whitespace; anything else throws (modelled as `none`). -/
def jsonParse (s : String) : Option Json :=
  match parseValue (s.length + 1) s.data with
  | none => none
  | some (v, rest) => if skipJsonWs rest = [] then some v else none

/-! ## Credential state (`manualApiKey`, `process.env.API_KEY`) -/

/-- The module-level mutable `manualApiKey : string | null`. -/
structure CredState where
  manualApiKey : Option String

def initialCredState : CredState := CredState.mk none

/-- `setManualApiKey = (key) => { manualApiKey = key; }` -/
def setManualApiKey (key : String) (_st : CredState) : CredState :=
  CredState.mk (some key)

/-- JavaScript truthiness of a nullable string (`null`, `undefined` and `""`
are falsy). -/
def truthy : Option String → Bool
  | none => false
  | some s => !(s = "")

/-- JavaScript `a || b` on nullable strings. -/
def jsOrOpt (a b : Option String) : Option String :=
  if truthy a then a else b

/-- JavaScript `a || b` where `b` is a plain (truthy) string default. -/
def jsOrDefault (a : Option String) (b : String) : String :=
  match a with
  | some s => if s = "" then b else s
  | none => b

/-- `hasGlobalApiKey = () => !!(process.env.API_KEY || manualApiKey)` -/
def hasGlobalApiKey (st : CredState) (env : Option String) : Bool :=
  truthy (jsOrOpt env st.manualApiKey)

/-- `getClient`: `const apiKey = manualApiKey || process.env.API_KEY;
if (!apiKey) return null; return new GoogleGenAI({ apiKey });` — the client is
represented by the key it was constructed with. -/
def getClient (st : CredState) (env : Option String) : Option String :=
  let apiKey := jsOrOpt st.manualApiKey env
  if truthy apiKey then apiKey else none

/-! ## The network oracle -/

/-- Outcome of one `ai.models.generateContent` call: either the promise
rejected (`err`) or it resolved with a response. -/
inductive Outcome (α : Type) where
  | ok (val : α)
  | err

/-- One part of an image-model response; `inlineData` carries the base64
payload `part.inlineData.data` when present. -/
structure ImgPart where
  inlineData : Option String

/-- An image-model response: `candidates?.[0]?.content?.parts`, `none` when
the optional chain is undefined. -/
structure ImageResponse where
  parts : Option (List ImgPart)

/-- The generative service, as an oracle keyed by the request prompt.
`textResp` yields `response.text` (which the SDK types as possibly
undefined); `imageResp` yields the candidate parts. -/
structure Net where
  textResp : String → Outcome (Option String)
  imageResp : String → Outcome ImageResponse

/-! ## Adapter operations

Each operation takes the credential state, the environment credential and
the network oracle, and returns its result paired with the number of network
requests it issued. -/

/-- `testApiKey`: minimal ping; true iff the request did not throw. -/
def testApiKey (st : CredState) (env : Option String) (net : Net) :
    Bool × Nat :=
  match getClient st env with
  | none => (false, 0)
  | some _ =>
    match net.textResp "ping" with
    | .ok _ => (true, 1)
    | .err => (false, 1)

/-- Scan of the parts array for the first inline image payload. -/
def firstInlineImage : List ImgPart → Option String
  | [] => none
  | p :: rest =>
    match p.inlineData with
    | some data => some ("data:image/png;base64," ++ data)
    | none => firstInlineImage rest

/-- `generateImage(prompt, aspectRatio)`: one image request; returns the
first inline image as a data URI, `null` on any failure or when no image part
is present.  The aspect ratio only shapes the request config and is not part
of the oracle key. -/
def generateImage (prompt : String) (_aspectRatio : String)
    (st : CredState) (env : Option String) (net : Net) :
    Option String × Nat :=
  match getClient st env with
  | none => (none, 0)
  | some _ =>
    match net.imageResp prompt with
    | .err => (none, 1)
    | .ok resp =>
      match resp.parts with
      | none => (none, 1)
      | some parts => (firstInlineImage parts, 1)

/-- A conversation turn (types.ts `ChatMessage`); only `sender` and `text`
are consulted by the orchestration layer. -/
structure ChatMessage where
  id : String
  sender : String
  text : String
  timestamp : Int

/-! ## Prompt construction

Prompt strings serve purely as opaque request keys for the oracle; their text
is transcribed from the source templates with the multi-line layout and some
punctuation condensed. -/

def dailyHeadlinePrompt : String :=
  "You are the editor of a 1920s mystical newspaper called Timension. Generate a front-page headline and a short story (approx 60 words) focused on a random fascinating historical event from the 20th century. The date should be historically accurate for the event chosen. Also provide a Weather of Time forecast. IMPORTANT: Headline must be punchy, uppercase, and dramatic. Content should sound like a vintage dispatch."

def mkHeadlineImagePrompt (headline : String) : String :=
  "A vintage, black and white newspaper photograph from the era depicting: "
    ++ headline
    ++ ". The scene should look like grainy photojournalism, high contrast, historical setting."

def chatTranscript (mentorName : String) (history : List ChatMessage) : String :=
  String.intercalate "\n"
    (history.map (fun h =>
      (if h.sender = "user" then "Student" else mentorName) ++ ": " ++ h.text))

def mkChatPrompt (mentorName mentorEra conversation newMessage : String) : String :=
  "System: You are roleplaying as " ++ mentorName ++ " from " ++ mentorEra
    ++ ". You are speaking to a student from the future (2025) via a magical newspaper interface. Keep your responses concise (under 80 words). Maintain a vintage, wise, slightly dramatic tone. Do not break character. Conversation History: "
    ++ conversation ++ " Student: " ++ newMessage ++ " " ++ mentorName ++ ":"

def mkVintageMapPrompt (location : String) : String :=
  "A highly detailed, antique map of " ++ location
    ++ " from the year 1920. Top-down cartographic view, sepia paper texture, vintage typography, intricate street lines. Looks like an authentic historical artifact from a 1920s atlas."

def mkTriviaPrompt (location : String) : String :=
  "Find 3 distinct, fascinating, and historically accurate trivia facts about "
    ++ location
    ++ " specifically from the early 20th century (1900-1950). Focus on events, architecture, or cultural shifts that a time traveler would find interesting. Use Google Maps data to verify the location significance. Format the output as a simple list of 3 facts, separated by newlines. Do not use JSON."

def photoPromptA (location : String) : String :=
  "A realistic vintage black and white photograph of " ++ location
    ++ " in 1924. Street level view, showing people in 1920s fashion, vintage cars. High contrast, film grain."

def photoPromptB (location : String) : String :=
  "A faded sepia photograph of a landmark in " ++ location
    ++ " from 1930. Bustling atmosphere, period accurate architecture, steam or smoke. Old camera aesthetic."

def mkSimPrompt (event originalOutcome userChange : String) : String :=
  "You are an Alternate History Simulator. Historical Event: " ++ event
    ++ " Original Outcome: " ++ originalOutcome
    ++ " The Time Traveler Change: " ++ userChange
    ++ " Predict the causal chain of events resulting from this change. Provide exactly 3 distinct steps in the timeline shift: 1. The Immediate Consequence (1940s-1950s). 2. The Ripple Effect (1970s-1990s). 3. The Modern Outcome (2020s). Also generate a sensational newspaper headline from this new present day. Return valid JSON format only."

def mkSimImagePrompt (headline sceneDesc : String) : String :=
  "Cinematic concept art depicting the alternate history result of: " ++ headline
    ++ ". Scene description based on: " ++ sceneDesc
    ++ ". Retro-futuristic or dystopian aesthetic depending on the outcome. Highly detailed, atmospheric."

/-! ## Fence cleaning (`text.replace(/```json/g, '').replace(/```/g, '').trim()`) -/

def fenceJsonPat : List Char := "```json".data

def fencePat : List Char := "```".data

/-- Left-to-right removal of every non-overlapping occurrence of `pat`
(JavaScript `replace(/pat/g, '')`), fuel-indexed to stay structurally
recursive; fuel at least the list length always suffices. -/
def removeOccFuel (pat : List Char) : Nat → List Char → List Char
  | _, [] => []
  | 0, s => s
  | Nat.succ fuel, c :: rest =>
    if isPrefixList pat (c :: rest) then
      removeOccFuel pat fuel (List.drop pat.length (c :: rest))
    else
      c :: removeOccFuel pat fuel rest

def removeAll (pat : List Char) (s : List Char) : List Char :=
  removeOccFuel pat s.length s

/-- The whitespace class of JavaScript `String.prototype.trim` (restricted to
the ASCII range; the exotic Unicode members never occur in the payloads
considered). -/
def isJsWsChar (c : Char) : Bool :=
  c = ' ' || c = '\t' || c = '\n' || c = '\r' || c = '\x0b' || c = '\x0c'

def trimLeftChars (l : List Char) : List Char := l.dropWhile isJsWsChar

def trimRightChars (l : List Char) : List Char :=
  (l.reverse.dropWhile isJsWsChar).reverse

def jsTrimChars (l : List Char) : List Char := trimLeftChars (trimRightChars l)

/-- The fence cleanup applied by `simulateAlternateHistory` before parsing. -/
def cleanFences (s : String) : String :=
  String.mk (jsTrimChars (removeAll fencePat (removeAll fenceJsonPat s.data)))

/-! ## Content generators -/

def fallbackImage : String :=
  "https://upload.wikimedia.org/wikipedia/commons/thumb/d/d1/Gandhi_spinning.jpg/640px-Gandhi_spinning.jpg"

/-- The value returned by `generateDailyHeadline` on success: the payload
produced by `JSON.parse` together with the `imageUrl` property subsequently
assigned on it. -/
structure ArticleOut where
  payload : Json
  imageUrl : Option String

/-- `generateDailyHeadline`: one schema-constrained text request, then a
companion image request; the parsed payload is used without validation.  When
the payload is a primitive, the strict-mode assignment
`article.imageUrl = ...` throws, the catch block rethrows on its own
assignment, and the outer catch returns null.  When the payload is `null`,
already the interpolation `article.headline` in the image prompt throws, so no
image request is issued. -/
def generateDailyHeadline (st : CredState) (env : Option String) (net : Net) :
    Option ArticleOut × Nat :=
  match getClient st env with
  | none => (none, 0)
  | some _ =>
    match net.textResp dailyHeadlinePrompt with
    | .err => (none, 1)
    | .ok none => (none, 1)
    | .ok (some text) =>
      if text = "" then (none, 1)
      else
        match jsonParse text with
        | none => (none, 1)
        | some article =>
          match jsGet article "headline" with
          | none => (none, 1)
          | some hv =>
            let res := generateImage (mkHeadlineImagePrompt (jsToStringU hv))
                        "4:3" st env net
            if canSetProp article then
              (some (ArticleOut.mk article
                       (some (jsOrDefault res.1 fallbackImage))), 1 + res.2)
            else
              (none, 1 + res.2)

def noCredentialChatReply : String :=
  "The chronometer is out of sync. Please configure your Telegraph Key (API Key) to communicate across time."

def chatErrorReply : String :=
  "The ink is smudged... I cannot hear you clearly."

/-- `chatWithMentor`: plain-text request; `response.text || "..."` on
success, fixed strings on missing credential and on failure. -/
def chatWithMentor (mentorName mentorEra : String) (history : List ChatMessage)
    (newMessage : String) (st : CredState) (env : Option String) (net : Net) :
    String × Nat :=
  match getClient st env with
  | none => (noCredentialChatReply, 0)
  | some _ =>
    match net.textResp (mkChatPrompt mentorName mentorEra
                          (chatTranscript mentorName history) newMessage) with
    | .err => (chatErrorReply, 1)
    | .ok none => ("...", 1)
    | .ok (some s) => (if s = "" then "..." else s, 1)

/-- `generateVintageMap`: a single image request. -/
def generateVintageMap (location : String) (st : CredState)
    (env : Option String) (net : Net) : Option String × Nat :=
  generateImage (mkVintageMapPrompt location) "1:1" st env net

/-- JavaScript `text.split('\n')`. -/
def splitNlChars : List Char → List (List Char)
  | [] => [[]]
  | '\n' :: rest => [] :: splitNlChars rest
  | c :: rest =>
    match splitNlChars rest with
    | [] => [[c]]
    | l :: ls => (c :: l) :: ls

def jsSplitNl (s : String) : List String := (splitNlChars s.data).map String.mk

/-- The whitespace class of the regex `\s` (ASCII range, as for trim). -/
def isJsRegexWs (c : Char) : Bool := isJsWsChar c

/-- `l.replace(/^\d+[\.\)]\s*/, '')`: strip one leading enumeration marker —
one or more digits, a dot or closing parenthesis, then any run of
whitespace. -/
def stripEnumMarker (line : String) : String :=
  match line.data.span Char.isDigit with
  | ([], _) => line
  | (_ :: _, c :: rest) =>
    if c = '.' || c = ')' then String.mk (rest.dropWhile isJsRegexWs) else line
  | (_ :: _, []) => line

/-- The line post-processing applied to a truthy trivia response. -/
def triviaPostprocess (text : String) : List String :=
  (((jsSplitNl text).filter (fun line => line.length > 10)).take 3).map
    stripEnumMarker

def noCredentialTrivia : List String :=
  ["Telegraph signal lost. Please check API Key configuration."]

def triviaFallback (location : String) : List String :=
  ["Historical records for " ++ location ++ " are currently fragmented."]

/-- `generateLocationTrivia`: one grounded text request; on a truthy response
the post-processed lines are returned (even when none survive the filter);
the fallback sentence is reached on a falsy response or a thrown request. -/
def generateLocationTrivia (location : String) (st : CredState)
    (env : Option String) (net : Net) : List String × Nat :=
  match getClient st env with
  | none => (noCredentialTrivia, 0)
  | some _ =>
    match net.textResp (mkTriviaPrompt location) with
    | .err => (triviaFallback location, 1)
    | .ok none => (triviaFallback location, 1)
    | .ok (some text) =>
      if text = "" then (triviaFallback location, 1)
      else (triviaPostprocess text, 1)

/-- `generateHistoricalPhotos`: two image requests joined by `Promise.all`,
collecting only the successes.  The join is modelled sequentially; the
source pushes in completion order, which no claim depends on. -/
def generateHistoricalPhotos (location : String) (st : CredState)
    (env : Option String) (net : Net) : List String × Nat :=
  let r1 := generateImage (photoPromptA location) "4:3" st env net
  let r2 := generateImage (photoPromptB location) "4:3" st env net
  (([r1.1, r2.1]).filterMap id, r1.2 + r2.2)

/-- The fixed fallback narrative of `simulateAlternateHistory`. -/
def simFallbackJson : Json :=
  Json.obj
    [("timelineSteps",
      Json.arr
        [Json.str "The Time Stream is unresponsive.",
         Json.str "Please ensure the Chrono-Key (API Key) is inserted.",
         Json.str "Simulation aborted."]),
     ("finalHeadline", Json.str "CONNECTION FAILED")]

/-- The value returned by `simulateAlternateHistory`: the payload (parsed or
fallback) together with the `imageUrl` property assigned on it, if any. -/
structure SimOut where
  payload : Json
  imageUrl : Option String

def simFallback : SimOut := SimOut.mk simFallbackJson none

/-- Building the concept-art prompt evaluates `result.finalHeadline` and
`result.timelineSteps[2]`; `none` models a TypeError thrown during that
evaluation (caught by the inner catch, which then skips the image request). -/
def simImagePrompt (result : Json) : Option String :=
  match jsGet result "finalHeadline" with
  | none => none
  | some hv =>
    match jsGet result "timelineSteps" with
    | none => none
    | some none => none
    | some (some steps) =>
      match jsIndex2 steps with
      | none => none
      | some v => some (mkSimImagePrompt (jsToStringU hv) (jsToStringU v))

/-- `simulateAlternateHistory`: schema-constrained text request; the response
text is fence-cleaned, then parsed without validation; every failure of the
text step yields the fixed fallback; the companion image is attached only when
generated and only when the payload accepts a property assignment. -/
def simulateAlternateHistory (event originalOutcome userChange : String)
    (st : CredState) (env : Option String) (net : Net) :
    Option SimOut × Nat :=
  match getClient st env with
  | none => (some simFallback, 0)
  | some _ =>
    match net.textResp (mkSimPrompt event originalOutcome userChange) with
    | .err => (some simFallback, 1)
    | .ok none => (some simFallback, 1)
    | .ok (some text0) =>
      if text0 = "" then (some simFallback, 1)
      else
        match jsonParse (cleanFences text0) with
        | none => (some simFallback, 1)
        | some result =>
          match simImagePrompt result with
          | none => (some (SimOut.mk result none), 1)
          | some prompt =>
            let r := generateImage prompt "16:9" st env net
            match r.1 with
            | none => (some (SimOut.mk result none), 1 + r.2)
            | some url =>
              if canSetProp result then
                (some (SimOut.mk result (some url)), 1 + r.2)
              else
                (some (SimOut.mk result none), 1 + r.2)

/-! ## Schema-conformance predicates and claim-statement helpers -/

def isStrField (fields : List (String × Json)) (key : String) : Bool :=
  match lookupField fields key with
  | some (Json.str _) => true
  | _ => false

/-- Full conformance to the declared NewsArticle response schema: an object
with string fields headline, date, content and weather. -/
def conformsNewsArticle : Json → Bool
  | Json.obj fields =>
    isStrField fields "headline" && isStrField fields "date" &&
      isStrField fields "content" && isStrField fields "weather"
  | _ => false

def allStrings : List Json → Bool
  | [] => true
  | Json.str _ :: rest => allStrings rest
  | _ => false

/-- Full conformance to the AlternateHistoryResult response schema:
timelineSteps an array of strings, finalHeadline a string. -/
def conformsAltHistory : Json → Bool
  | Json.obj fields =>
    (match lookupField fields "timelineSteps" with
     | some (Json.arr steps) => allStrings steps
     | _ => false) && isStrField fields "finalHeadline"
  | _ => false

/-- Does a string begin with an enumeration marker of the form
digits-dot-space or digits-parenthesis-space? -/
def beginsWithEnumMarker (s : String) : Bool :=
  match s.data.span Char.isDigit with
  | ([], _) => false
  | (_ :: _, c :: sp :: _) => (c = '.' || c = ')') && sp = ' '
  | (_ :: _, _) => false

/-- The canonical code-fence wrapping of a payload. -/
def wrapFence (payload : String) : String := "```json\n" ++ payload ++ "\n```"

/-- Replace the oracle text response by a constant success, keeping the image
oracle; models mocking the text endpoint. -/
def netWithText (net : Net) (t : String) : Net :=
  Net.mk (fun _ => Outcome.ok (some t)) net.imageResp

/-- An oracle whose every request rejects. -/
def netAllErr : Net := Net.mk (fun _ => Outcome.err) (fun _ => Outcome.err)

/-- An oracle whose text endpoint returns the given text and whose image
endpoint rejects. -/
def netTextOnly (t : String) : Net :=
  Net.mk (fun _ => Outcome.ok (some t)) (fun _ => Outcome.err)

/-! ## Helper lemmas -/

theorem getClient_none_of_untruthy (st : CredState) (env : Option String)
    (hm : truthy st.manualApiKey = false) (he : truthy env = false) :
    getClient st env = none := by
  simp [getClient, jsOrOpt, hm, he]

theorem generateImage_count_one (prompt ar : String) (st : CredState)
    (env : Option String) (net : Net) (k : String)
    (hc : getClient st env = some k) :
    (generateImage prompt ar st env net).2 = 1 := by
  simp only [generateImage, hc]
  cases net.imageResp prompt with
  | err => rfl
  | ok resp => cases h : resp.parts <;> simp [h]

theorem generateImage_err (prompt ar : String) (st : CredState)
    (env : Option String) (net : Net) (k : String)
    (hc : getClient st env = some k)
    (he : net.imageResp prompt = Outcome.err) :
    generateImage prompt ar st env net = (none, 1) := by
  simp [generateImage, hc, he]

/-! ## C1 — credential priority -/

/-- C1 counterexample: the claim says an environment credential, when
present, is always the one used; but after `setManualApiKey "manual-key"`
with environment credential "env-key" present, resolution yields the manual
key, not the environment one. -/
theorem C1_counterexample :
    getClient (setManualApiKey "manual-key" initialCredState) (some "env-key")
        = some "manual-key" ∧
      ("manual-key" : String) ≠ "env-key" := by
  exact ⟨rfl, by decide⟩

/-- C1 (amended): credential resolution gives priority to the manually set
credential; a nonempty manual key always wins, the environment credential is
consulted only when the manual key is absent or empty, and a second
`setManualApiKey` call leaves only the second value stored. -/
theorem C1_manual_priority (env : Option String) (k1 k2 : String)
    (st : CredState) :
    (setManualApiKey k2 (setManualApiKey k1 st)).manualApiKey = some k2 ∧
      (k2 ≠ "" →
        getClient (setManualApiKey k2 (setManualApiKey k1 st)) env = some k2) ∧
      (truthy st.manualApiKey = false →
        getClient st env = getClient initialCredState env) := by
  refine ⟨rfl, ?_, ?_⟩
  · intro h
    simp [getClient, setManualApiKey, jsOrOpt, truthy, h]
  · intro h
    unfold getClient jsOrOpt
    rw [h]
    simp [initialCredState, truthy]

theorem C1_witness :
    getClient (setManualApiKey "b" (setManualApiKey "a" initialCredState))
      (some "e") = some "b" :=
  (C1_manual_priority (some "e") "a" "b" initialCredState).2.1 (by decide)

/-! ## C3 — no credential, no network -/

/-- C3: while no credential is resolved, every operation returns its
absent/false/fallback result with zero network requests issued; in particular
`testApiKey` returns false without a network call. -/
theorem C3_no_credential_no_network (st : CredState) (env : Option String)
    (net : Net) (prompt ar location mentorName mentorEra newMessage event
      orig change : String) (history : List ChatMessage)
    (h : getClient st env = none) :
    testApiKey st env net = (false, 0) ∧
      generateImage prompt ar st env net = (none, 0) ∧
      generateDailyHeadline st env net = (none, 0) ∧
      chatWithMentor mentorName mentorEra history newMessage st env net
        = (noCredentialChatReply, 0) ∧
      generateVintageMap location st env net = (none, 0) ∧
      generateLocationTrivia location st env net = (noCredentialTrivia, 0) ∧
      generateHistoricalPhotos location st env net = ([], 0) ∧
      simulateAlternateHistory event orig change st env net
        = (some simFallback, 0) := by
  refine ⟨?_, ?_, ?_, ?_, ?_, ?_, ?_, ?_⟩ <;>
    simp [testApiKey, generateImage, generateDailyHeadline, chatWithMentor,
      generateVintageMap, generateLocationTrivia, generateHistoricalPhotos,
      simulateAlternateHistory, h]

theorem C3_witness :
    testApiKey initialCredState none netAllErr = (false, 0) :=
  (C3_no_credential_no_network initialCredState none netAllErr "p" "1:1" "L"
    "M" "E" "hello" "ev" "orig" "ch" [] rfl).1

/-! ## C10 — chatWithMentor totality -/

/-- C10: `chatWithMentor` always returns a non-empty string: the fixed
no-credential string when no credential is resolved, the fixed failure string
when the request throws, the literal "..." when the request succeeds with
empty or missing text, and never the empty string. -/
theorem C10_chat_total (mentorName mentorEra newMessage : String)
    (history : List ChatMessage) (st : CredState) (env : Option String)
    (net : Net) :
    (chatWithMentor mentorName mentorEra history newMessage st env net).1
        ≠ "" ∧
      (getClient st env = none →
        (chatWithMentor mentorName mentorEra history newMessage st env net).1
          = noCredentialChatReply) ∧
      (∀ k, getClient st env = some k →
        net.textResp (mkChatPrompt mentorName mentorEra
            (chatTranscript mentorName history) newMessage) = Outcome.err →
        (chatWithMentor mentorName mentorEra history newMessage st env net).1
          = chatErrorReply) ∧
      (∀ k s, getClient st env = some k →
        net.textResp (mkChatPrompt mentorName mentorEra
            (chatTranscript mentorName history) newMessage)
          = Outcome.ok s →
        (s = none ∨ s = some "") →
        (chatWithMentor mentorName mentorEra history newMessage st env net).1
          = "...") := by
  refine ⟨?_, ?_, ?_, ?_⟩
  · cases hc : getClient st env with
    | none => simp [chatWithMentor, hc, noCredentialChatReply]
    | some k =>
      cases ht : net.textResp (mkChatPrompt mentorName mentorEra
          (chatTranscript mentorName history) newMessage) with
      | err => simp [chatWithMentor, hc, ht, chatErrorReply]
      | ok s =>
        cases s with
        | none => simp [chatWithMentor, hc, ht]
        | some t =>
          by_cases h : t = "" <;> simp [chatWithMentor, hc, ht, h]
  · intro hc
    simp [chatWithMentor, hc]
  · intro k hc ht
    simp [chatWithMentor, hc, ht]
  · intro k s hc ht hs
    rcases hs with h | h <;> subst h <;> simp [chatWithMentor, hc, ht]

theorem C10_witness :
    (chatWithMentor "Gandhi" "1930s India" [] "hello" initialCredState none
      netAllErr).1 ≠ "" :=
  (C10_chat_total "Gandhi" "1930s India" "hello" [] initialCredState none
    netAllErr).1

/-! ## C5 — trivia fallback scope -/

/-- C5 counterexample: with a credential present and a truthy response text
("hi") from which no usable trivia line can be extracted, the function
returns the empty collection — not the single-element fallback the claim
promises. -/
theorem C5_counterexample :
    (generateLocationTrivia "Paris" (CredState.mk (some "key")) none
      (netTextOnly "hi")).1 = [] := by
  rfl

/-- C5 (amended): the single-element fallback sentence is returned when the
request throws or the response text is absent or empty; but a nonempty
response text from which no usable line survives the length filter yields an
empty collection, not the fallback. -/
theorem C5_fallback_scope (location : String) (st : CredState)
    (env : Option String) (net : Net) (k : String)
    (hc : getClient st env = some k) :
    ((net.textResp (mkTriviaPrompt location) = Outcome.err ∨
        net.textResp (mkTriviaPrompt location) = Outcome.ok none ∨
        net.textResp (mkTriviaPrompt location) = Outcome.ok (some "")) →
      (generateLocationTrivia location st env net).1
        = triviaFallback location) ∧
      (∀ t, net.textResp (mkTriviaPrompt location) = Outcome.ok (some t) →
        t ≠ "" →
        (∀ l ∈ jsSplitNl t, ¬ l.length > 10) →
        (generateLocationTrivia location st env net).1 = []) := by
  constructor
  · rintro (h | h | h) <;> simp [generateLocationTrivia, hc, h]
  · intro t ht hne hshort
    have hfil : (jsSplitNl t).filter (fun line => line.length > 10) = [] := by
      rw [List.filter_eq_nil_iff]
      intro a ha
      simpa using hshort a ha
    simp [generateLocationTrivia, hc, ht, hne, triviaPostprocess, hfil]

theorem C5_witness :
    (generateLocationTrivia "L" (CredState.mk (some "k")) none netAllErr).1
      = triviaFallback "L" :=
  (C5_fallback_scope "L" (CredState.mk (some "k")) none netAllErr "k"
    rfl).1 (Or.inl rfl)

/-! ## C4 — trivia post-processing -/

/-- C4 counterexample: the line "1.2. abcdefgh" (13 characters) survives the
length filter; stripping one leading enumeration marker leaves
"2. abcdefgh", which still begins with an enumeration marker, contradicting
the claim that no returned entry does. -/
theorem C4_counterexample :
    (generateLocationTrivia "Paris" (CredState.mk (some "key")) none
        (netTextOnly "1.2. abcdefgh")).1 = ["2. abcdefgh"] ∧
      beginsWithEnumMarker "2. abcdefgh" = true := by
  exact ⟨rfl, rfl⟩

/-- C4 (amended): for any response text, the returned collection has length
at most 3, and every entry is some response line of length exceeding 10 with
exactly one leading enumeration marker stripped (so an entry still begins
with a marker only when its source line stacked several). -/
theorem C4_postprocess (location t : String) (st : CredState)
    (env : Option String) (net : Net) (k : String)
    (hc : getClient st env = some k)
    (ht : net.textResp (mkTriviaPrompt location) = Outcome.ok (some t))
    (hne : t ≠ "") :
    (generateLocationTrivia location st env net).1.length ≤ 3 ∧
      ∀ e ∈ (generateLocationTrivia location st env net).1,
        ∃ l, l ∈ jsSplitNl t ∧ l.length > 10 ∧ e = stripEnumMarker l := by
  have hr : (generateLocationTrivia location st env net).1
      = triviaPostprocess t := by
    simp [generateLocationTrivia, hc, ht, hne]
  rw [hr]
  constructor
  · calc (triviaPostprocess t).length
        = (((jsSplitNl t).filter (fun line => line.length > 10)).take 3).length := by
          simp [triviaPostprocess]
      _ ≤ 3 := List.length_take_le 3 _
  · intro e he
    simp only [triviaPostprocess, List.mem_map] at he
    obtain ⟨l, hl, hel⟩ := he
    have hl' := List.mem_of_mem_take hl
    rw [List.mem_filter] at hl'
    exact ⟨l, hl'.1, by simpa using hl'.2, hel.symm⟩

theorem C4_witness :
    (generateLocationTrivia "L" (CredState.mk (some "k")) none
      (netTextOnly "aaaaaaaaaaaa")).1.length ≤ 3 :=
  (C4_postprocess "L" "aaaaaaaaaaaa" (CredState.mk (some "k")) none
    (netTextOnly "aaaaaaaaaaaa") "k" rfl rfl (by decide)).1

/-! ## C6 — historical photos partial-success aggregation -/

/-- C6: `generateHistoricalPhotos` performs its two underlying image
generations and returns exactly the successes: both failing gives the empty
collection (not absent, and the embedding is a total function, so no
exception), exactly one success gives a single-element collection, and with a
resolved credential exactly two network requests are issued. -/
theorem C6_photos (location : String) (st : CredState) (env : Option String)
    (net : Net) :
    ((generateImage (photoPromptA location) "4:3" st env net).1 = none →
        (generateImage (photoPromptB location) "4:3" st env net).1 = none →
        (generateHistoricalPhotos location st env net).1 = []) ∧
      (∀ b, (generateImage (photoPromptA location) "4:3" st env net).1 = none →
        (generateImage (photoPromptB location) "4:3" st env net).1 = some b →
        (generateHistoricalPhotos location st env net).1 = [b]) ∧
      (∀ a, (generateImage (photoPromptA location) "4:3" st env net).1 = some a →
        (generateImage (photoPromptB location) "4:3" st env net).1 = none →
        (generateHistoricalPhotos location st env net).1 = [a]) ∧
      (∀ a b, (generateImage (photoPromptA location) "4:3" st env net).1 = some a →
        (generateImage (photoPromptB location) "4:3" st env net).1 = some b →
        (generateHistoricalPhotos location st env net).1 = [a, b]) ∧
      (∀ k, getClient st env = some k →
        (generateHistoricalPhotos location st env net).2 = 2) := by
  refine ⟨?_, ?_, ?_, ?_, ?_⟩
  · intro h1 h2
    simp [generateHistoricalPhotos, h1, h2]
  · intro b h1 h2
    simp [generateHistoricalPhotos, h1, h2]
  · intro a h1 h2
    simp [generateHistoricalPhotos, h1, h2]
  · intro a b h1 h2
    simp [generateHistoricalPhotos, h1, h2]
  · intro k hc
    simp [generateHistoricalPhotos,
      generateImage_count_one (photoPromptA location) "4:3" st env net k hc,
      generateImage_count_one (photoPromptB location) "4:3" st env net k hc]

theorem C6_witness :
    (generateHistoricalPhotos "L" (CredState.mk (some "k")) none
      (Net.mk (fun _ => Outcome.err)
        (fun p => if p = photoPromptA "L"
          then Outcome.ok (ImageResponse.mk
            (some [ImgPart.mk (some "AAAA")]))
          else Outcome.err))).1
      = ["data:image/png;base64,AAAA"] :=
  (C6_photos "L" (CredState.mk (some "k")) none _).2.2.1
    "data:image/png;base64,AAAA" (by rfl) (by rfl)

/-! ## C8 — alternate-history fallback shape -/

/-- C8: whenever the service is unreachable or the request fails (no
credential, thrown request, or missing response text), the result of
`simulateAlternateHistory` is the fixed fallback, whose payload has exactly 3
timeline steps and a non-empty headline; the result is never absent (and the
embedding is a total function, so no exception escapes). -/
theorem C8_sim_fallback (event orig change : String) (st : CredState)
    (env : Option String) (net : Net) :
    (simulateAlternateHistory event orig change st env net).1 ≠ none ∧
      (getClient st env = none →
        simulateAlternateHistory event orig change st env net
          = (some simFallback, 0)) ∧
      (∀ k, getClient st env = some k →
        net.textResp (mkSimPrompt event orig change) = Outcome.err →
        (simulateAlternateHistory event orig change st env net).1
          = some simFallback) ∧
      (∀ k, getClient st env = some k →
        net.textResp (mkSimPrompt event orig change) = Outcome.ok none →
        (simulateAlternateHistory event orig change st env net).1
          = some simFallback) ∧
      (∃ steps, jsGet simFallback.payload "timelineSteps"
          = some (some (Json.arr steps)) ∧ steps.length = 3) ∧
      (∃ h, jsGet simFallback.payload "finalHeadline"
          = some (some (Json.str h)) ∧ h ≠ "") := by
  refine ⟨?_, ?_, ?_, ?_, ?_, ?_⟩
  · cases hc : getClient st env with
    | none => simp [simulateAlternateHistory, hc]
    | some k =>
      cases ht : net.textResp (mkSimPrompt event orig change) with
      | err => simp [simulateAlternateHistory, hc, ht]
      | ok s =>
        cases s with
        | none => simp [simulateAlternateHistory, hc, ht]
        | some t =>
          by_cases he : t = ""
          · simp [simulateAlternateHistory, hc, ht, he]
          · simp only [simulateAlternateHistory, hc, ht, he, if_false]
            cases hp : jsonParse (cleanFences t) with
            | none => simp [hp]
            | some result =>
              cases hsp : simImagePrompt result with
              | none => simp [hp, hsp]
              | some prompt =>
                cases hu : (generateImage prompt "16:9" st env net).1 with
                | none => simp [hp, hsp, hu]
                | some url => by_cases hcs : canSetProp result <;>
                    simp [hp, hsp, hu, hcs]
  · intro hc
    simp [simulateAlternateHistory, hc]
  · intro k hc ht
    simp [simulateAlternateHistory, hc, ht]
  · intro k hc ht
    simp [simulateAlternateHistory, hc, ht]
  · exact ⟨[Json.str "The Time Stream is unresponsive.",
      Json.str "Please ensure the Chrono-Key (API Key) is inserted.",
      Json.str "Simulation aborted."], rfl, rfl⟩
  · exact ⟨"CONNECTION FAILED", rfl, by decide⟩

theorem C8_witness :
    (simulateAlternateHistory "WW2" "Allied victory" "change"
      (CredState.mk (some "k")) none netAllErr).1 = some simFallback :=
  (C8_sim_fallback "WW2" "Allied victory" "change" (CredState.mk (some "k"))
    none netAllErr).2.2.1 "k" rfl rfl

/-! ## C2 — schema conformance of structured results -/

/-- C2 counterexample: the payload "\x7b\x7d" (an empty JSON object) parses
successfully, is never validated, and is surfaced by `generateDailyHeadline`
even though it conforms to no part of the declared NewsArticle schema. -/
theorem C2_counterexample :
    (generateDailyHeadline (CredState.mk (some "key")) none
        (netTextOnly "\x7b\x7d")).1
        = some (ArticleOut.mk (Json.obj []) (some fallbackImage)) ∧
      conformsNewsArticle (Json.obj []) = false := by
  exact ⟨rfl, rfl⟩

/-- C2 (amended): a payload that fails to parse as JSON yields the
absent/fallback result, but no schema validation is performed: a successfully
parsed payload is surfaced as-is — `simulateAlternateHistory` returns it
whatever its shape, and `generateDailyHeadline` returns it whenever it is an
object or array (a primitive payload makes the strict-mode image-reference
assignment throw, yielding absent). -/
theorem C2_no_validation (st : CredState) (env : Option String) (net : Net)
    (k t event orig change : String) (hc : getClient st env = some k) :
    (net.textResp dailyHeadlinePrompt = Outcome.ok (some t) → t ≠ "" →
        jsonParse t = none → (generateDailyHeadline st env net).1 = none) ∧
      (net.textResp (mkSimPrompt event orig change) = Outcome.ok (some t) →
        t ≠ "" → jsonParse (cleanFences t) = none →
        (simulateAlternateHistory event orig change st env net).1
          = some simFallback) ∧
      (∀ j, net.textResp dailyHeadlinePrompt = Outcome.ok (some t) → t ≠ "" →
        jsonParse t = some j → canSetProp j = true →
        ∃ img, (generateDailyHeadline st env net).1
          = some (ArticleOut.mk j img)) ∧
      (∀ j, net.textResp (mkSimPrompt event orig change) = Outcome.ok (some t) →
        t ≠ "" → jsonParse (cleanFences t) = some j →
        ∃ img, (simulateAlternateHistory event orig change st env net).1
          = some (SimOut.mk j img)) := by
  refine ⟨?_, ?_, ?_, ?_⟩
  · intro ht hne hp
    simp [generateDailyHeadline, hc, ht, hne, hp]
  · intro ht hne hp
    simp [simulateAlternateHistory, hc, ht, hne, hp]
  · intro j ht hne hp hcs
    cases j with
    | obj fields =>
      exact ⟨some (jsOrDefault (generateImage (mkHeadlineImagePrompt
          (jsToStringU (lookupField fields "headline"))) "4:3" st env net).1
          fallbackImage),
        by simp [generateDailyHeadline, hc, ht, hne, hp, jsGet, canSetProp]⟩
    | arr elems =>
      exact ⟨some (jsOrDefault (generateImage (mkHeadlineImagePrompt
          (jsToStringU none)) "4:3" st env net).1 fallbackImage),
        by simp [generateDailyHeadline, hc, ht, hne, hp, jsGet, canSetProp]⟩
    | null => simp [canSetProp] at hcs
    | bool b => simp [canSetProp] at hcs
    | num n => simp [canSetProp] at hcs
    | str s => simp [canSetProp] at hcs
  · intro j ht hne hp
    simp only [simulateAlternateHistory, hc, ht, hne, if_false, hp]
    cases hsp : simImagePrompt j with
    | none => exact ⟨none, by simp [hsp]⟩
    | some prompt =>
      cases hu : (generateImage prompt "16:9" st env net).1 with
      | none => exact ⟨none, by simp [hsp, hu]⟩
      | some url =>
        by_cases hcs : canSetProp j = true
        · exact ⟨some url, by simp [hsp, hu, hcs]⟩
        · exact ⟨none, by simp [hsp, hu, hcs]⟩

theorem C2_witness :
    (generateDailyHeadline (CredState.mk (some "k")) none
      (netTextOnly "notjson")).1 = none :=
  (C2_no_validation (CredState.mk (some "k")) none (netTextOnly "notjson")
    "k" "notjson" "e" "o" "c" rfl).1 rfl (by decide) rfl

/-! ## C7 — headline absence and default image -/

/-- C7 counterexample: the primitive payload "5" parses successfully — the
text step does not fail — yet `generateDailyHeadline` returns absent, because
the strict-mode assignment of `imageUrl` on a number throws and the catch
blocks rethrow. -/
theorem C7_counterexample :
    jsonParse "5" = some (Json.num 5) ∧
      (generateDailyHeadline (CredState.mk (some "key")) none
        (netTextOnly "5")).1 = none := by
  exact ⟨rfl, rfl⟩

/-- C7 (amended): whenever a value is returned and the companion image
generation fails (for instance the credential is set but every image request
rejects), its `imageUrl` is the fixed default reference; and absent is
returned exactly on text-step failure (thrown request, missing/empty text,
unparseable payload) or on a primitive payload, whose strict-mode `imageUrl`
assignment throws. -/
theorem C7_headline_image_default (st : CredState) (env : Option String)
    (net : Net) (k t : String) (j : Json) (hc : getClient st env = some k) :
    ((∀ p, net.imageResp p = Outcome.err) →
        net.textResp dailyHeadlinePrompt = Outcome.ok (some t) → t ≠ "" →
        jsonParse t = some j → canSetProp j = true →
        (generateDailyHeadline st env net).1
          = some (ArticleOut.mk j (some fallbackImage))) ∧
      (net.textResp dailyHeadlinePrompt = Outcome.err →
        (generateDailyHeadline st env net).1 = none) ∧
      (net.textResp dailyHeadlinePrompt = Outcome.ok none →
        (generateDailyHeadline st env net).1 = none) ∧
      (net.textResp dailyHeadlinePrompt = Outcome.ok (some t) → t ≠ "" →
        jsonParse t = none → (generateDailyHeadline st env net).1 = none) ∧
      (net.textResp dailyHeadlinePrompt = Outcome.ok (some t) → t ≠ "" →
        jsonParse t = some j → canSetProp j = false →
        (generateDailyHeadline st env net).1 = none) := by
  refine ⟨?_, ?_, ?_, ?_, ?_⟩
  · intro him ht hne hp hcs
    cases j with
    | obj fields =>
      have hgi := generateImage_err (mkHeadlineImagePrompt
        (jsToStringU (lookupField fields "headline"))) "4:3" st env net k hc
        (him _)
      simp [generateDailyHeadline, hc, ht, hne, hp, jsGet, canSetProp, hgi,
        jsOrDefault]
    | arr elems =>
      have hgi := generateImage_err (mkHeadlineImagePrompt
        (jsToStringU none)) "4:3" st env net k hc (him _)
      simp [generateDailyHeadline, hc, ht, hne, hp, jsGet, canSetProp, hgi,
        jsOrDefault]
    | null => simp [canSetProp] at hcs
    | bool b => simp [canSetProp] at hcs
    | num n => simp [canSetProp] at hcs
    | str s => simp [canSetProp] at hcs
  · intro ht
    simp [generateDailyHeadline, hc, ht]
  · intro ht
    simp [generateDailyHeadline, hc, ht]
  · intro ht hne hp
    simp [generateDailyHeadline, hc, ht, hne, hp]
  · intro ht hne hp hcs
    cases j with
    | null => simp [generateDailyHeadline, hc, ht, hne, hp, jsGet]
    | obj fields => simp [canSetProp] at hcs
    | arr elems => simp [canSetProp] at hcs
    | bool b =>
      simp [generateDailyHeadline, hc, ht, hne, hp, jsGet, canSetProp]
    | num n =>
      simp [generateDailyHeadline, hc, ht, hne, hp, jsGet, canSetProp]
    | str s =>
      simp [generateDailyHeadline, hc, ht, hne, hp, jsGet, canSetProp]

theorem C7_witness :
    (generateDailyHeadline (CredState.mk (some "k")) none
      (netTextOnly "\x7b\x7d")).1
      = some (ArticleOut.mk (Json.obj []) (some fallbackImage)) :=
  (C7_headline_image_default (CredState.mk (some "k")) none
    (netTextOnly "\x7b\x7d") "k" "\x7b\x7d" (Json.obj []) rfl).1
    (fun _ => rfl) rfl (by decide) rfl rfl

/-! ## C9 — fence stripping: list-level lemmas -/

theorem isPrefixList_length : ∀ (p l : List Char),
    isPrefixList p l = true → p.length ≤ l.length := by
  intro p
  induction p with
  | nil => intro l _; simp
  | cons a as ih =>
    intro l h
    cases l with
    | nil => simp [isPrefixList] at h
    | cons b bs =>
      simp only [isPrefixList, Bool.and_eq_true] at h
      simpa [List.length_cons] using Nat.succ_le_succ (ih bs h.2)

theorem isPrefixList_self_append : ∀ (p t : List Char),
    isPrefixList p (p ++ t) = true := by
  intro p t
  induction p with
  | nil => simp [isPrefixList]
  | cons a as ih => simpa [isPrefixList] using ih

theorem isPrefixList_append_of : ∀ (p l m : List Char),
    isPrefixList p l = true → isPrefixList p (l ++ m) = true := by
  intro p
  induction p with
  | nil => intro l m _; simp [isPrefixList]
  | cons a as ih =>
    intro l m h
    cases l with
    | nil => simp [isPrefixList] at h
    | cons b bs =>
      simp only [isPrefixList, Bool.and_eq_true, List.cons_append] at h ⊢
      exact ⟨h.1, ih bs m h.2⟩

theorem isPrefixList_no_nl : ∀ (p A C : List Char),
    p.all (fun c => !(c = '\n')) = true →
    isPrefixList p (A ++ '\n' :: C) = true → isPrefixList p A = true := by
  intro p
  induction p with
  | nil => intro A C _ _; simp [isPrefixList]
  | cons a as ih =>
    intro A C hall h
    simp only [List.all_cons, Bool.and_eq_true] at hall
    cases A with
    | nil =>
      exfalso
      simp only [List.nil_append, isPrefixList, Bool.and_eq_true,
        decide_eq_true_eq] at h
      have : ¬ a = '\n' := by simpa using hall.1
      exact this h.1
    | cons b bs =>
      simp only [List.cons_append, isPrefixList, Bool.and_eq_true] at h ⊢
      exact ⟨h.1, ih bs C hall.2 h.2⟩

theorem isPrefixList_no_nl_head : ∀ (p X : List Char),
    p.all (fun c => !(c = '\n')) = true → 0 < p.length →
    isPrefixList p ('\n' :: X) = false := by
  intro p X hall hp
  cases p with
  | nil => simp at hp
  | cons a p' =>
    simp only [List.all_cons, Bool.and_eq_true] at hall
    have : ¬ a = '\n' := by simpa using hall.1
    simp [isPrefixList, this]

theorem removeOccFuel_nil (p : List Char) (f : Nat) :
    removeOccFuel p f [] = [] := by
  cases f <;> rfl

theorem removeOccFuel_short : ∀ (p : List Char) (f : Nat) (s : List Char),
    s.length < p.length → removeOccFuel p f s = s := by
  intro p f
  induction f with
  | zero => intro s _; cases s <;> rfl
  | succ f ih =>
    intro s h
    cases s with
    | nil => rfl
    | cons c rest =>
      have hpre : isPrefixList p (c :: rest) = false := by
        by_contra hc
        have := isPrefixList_length p (c :: rest)
          (by simpa using Bool.not_eq_false _ |>.mp hc)
        omega
      simp only [removeOccFuel, hpre, Bool.false_eq_true, if_false]
      have := ih rest (by simp only [List.length_cons] at h; omega)
      rw [this]

theorem dropAppendOfLe : ∀ (n : Nat) (l1 l2 : List Char), n ≤ l1.length →
    (l1 ++ l2).drop n = l1.drop n ++ l2 := by
  intro n
  induction n with
  | zero => intro l1 l2 _; simp
  | succ n ih =>
    intro l1 l2 h
    cases l1 with
    | nil => simp at h
    | cons a l1' =>
      simp only [List.cons_append, List.drop_succ_cons]
      exact ih l1' l2 (by simpa using h)

theorem removeOccFuel_fuelIrrel : ∀ (p : List Char), 0 < p.length →
    ∀ (f1 : Nat) (f2 : Nat) (s : List Char), s.length ≤ f1 → s.length ≤ f2 →
    removeOccFuel p f1 s = removeOccFuel p f2 s := by
  intro p hp f1
  induction f1 with
  | zero =>
    intro f2 s h1 _
    have : s = [] := List.eq_nil_of_length_eq_zero (Nat.le_zero.mp h1)
    subst this
    simp [removeOccFuel_nil]
  | succ f1 ih =>
    intro f2 s h1 h2
    cases s with
    | nil => simp [removeOccFuel_nil]
    | cons c rest =>
      cases f2 with
      | zero => simp at h2
      | succ f2 =>
        by_cases hpre : isPrefixList p (c :: rest) = true
        · simp only [removeOccFuel, hpre, if_true]
          have hl : (List.drop p.length (c :: rest)).length ≤ f1 := by
            simp only [List.length_drop, List.length_cons]
            simp only [List.length_cons] at h1
            omega
          have hl2 : (List.drop p.length (c :: rest)).length ≤ f2 := by
            simp only [List.length_drop, List.length_cons]
            simp only [List.length_cons] at h2
            omega
          exact ih f2 _ hl hl2
        · simp only [removeOccFuel, hpre, Bool.false_eq_true, if_false]
          rw [ih f2 rest (by simp only [List.length_cons] at h1; omega)
            (by simp only [List.length_cons] at h2; omega)]

theorem removeOccFuel_selfEat : ∀ (p : List Char) (f : Nat), 0 < p.length →
    removeOccFuel p (Nat.succ f) p = [] := by
  intro p f hp
  cases p with
  | nil => simp at hp
  | cons a p' =>
    have hpre : isPrefixList (a :: p') (a :: p') = true := by
      simpa using isPrefixList_self_append (a :: p') []
    simp only [removeOccFuel, hpre, if_true]
    rw [List.drop_length]
    exact removeOccFuel_nil _ _

theorem removeOccFuel_headEat (p : List Char) (hp : 0 < p.length)
    (f : Nat) (t : List Char) (ht : t.length ≤ f) :
    removeOccFuel p (f + p.length) (p ++ t) = removeOccFuel p f t := by
  cases p with
  | nil => simp at hp
  | cons a p' =>
    have hpre : isPrefixList (a :: p') (a :: (p' ++ t)) = true := by
      simpa using isPrefixList_self_append (a :: p') t
    have hfe : f + (a :: p').length = Nat.succ (f + p'.length) := by
      simp [List.length_cons]; omega
    rw [hfe]
    simp only [List.cons_append, removeOccFuel, List.append_eq, hpre, if_true]
    rw [show (a :: p').length = p'.length + 1 from rfl, List.drop_succ_cons,
      List.drop_left]
    exact removeOccFuel_fuelIrrel (a :: p') (by simp) (f + p'.length) f t
      (by omega) ht

theorem removeOccFuel_tailKeep (p C : List Char)
    (hnl : p.all (fun c => !(c = '\n')) = true)
    (hlen : ('\n' :: C).length < p.length) :
    ∀ (fuel : Nat) (A : List Char), A.length ≤ fuel →
    removeOccFuel p (fuel + ('\n' :: C).length) (A ++ '\n' :: C)
      = removeOccFuel p fuel A ++ '\n' :: C := by
  intro fuel
  induction fuel with
  | zero =>
    intro A hA
    have hA0 : A = [] := List.eq_nil_of_length_eq_zero (Nat.le_zero.mp hA)
    subst hA0
    simp only [List.nil_append, Nat.zero_add, removeOccFuel_nil]
    exact removeOccFuel_short p _ _ hlen
  | succ fuel ih =>
    intro A hA
    cases A with
    | nil =>
      simp only [List.nil_append, removeOccFuel_nil]
      exact removeOccFuel_short p _ _ hlen
    | cons c rest =>
      have hstep : Nat.succ fuel + ('\n' :: C).length
          = Nat.succ (fuel + ('\n' :: C).length) := by omega
      have hrest : rest.length ≤ fuel := by
        simpa [List.length_cons] using hA
      by_cases hpre : isPrefixList p (c :: rest) = true
      · have hpre2 : isPrefixList p (c :: (rest ++ '\n' :: C)) = true := by
          simpa using isPrefixList_append_of p (c :: rest) ('\n' :: C) hpre
        have hple : p.length ≤ (c :: rest).length := isPrefixList_length _ _ hpre
        rw [hstep]
        simp only [List.cons_append, removeOccFuel, List.append_eq, hpre,
          hpre2, if_true]
        rw [← List.cons_append, dropAppendOfLe p.length (c :: rest)
          ('\n' :: C) hple]
        refine ih _ ?_
        simp only [List.length_drop, List.length_cons]
        have hppos : 0 < p.length := by
          simp only [List.length_cons] at hlen; omega
        omega
      · have hpreF : isPrefixList p (c :: rest) = false := by
          cases hb : isPrefixList p (c :: rest) with
          | false => rfl
          | true => exact absurd hb hpre
        have hpre2F : isPrefixList p (c :: (rest ++ '\n' :: C)) = false := by
          cases hb : isPrefixList p (c :: (rest ++ '\n' :: C)) with
          | false => rfl
          | true =>
            have := isPrefixList_no_nl p (c :: rest) C hnl (by simpa using hb)
            exact absurd this hpre
        rw [hstep]
        simp only [List.cons_append, removeOccFuel, List.append_eq, hpreF,
          hpre2F, Bool.false_eq_true, if_false]
        rw [ih rest hrest]

theorem removeOccFuel_fence_nlfence (f : Nat) :
    removeOccFuel fencePat (f + 4) ('\n' :: fencePat) = ['\n'] := by
  have hl : ('\n' :: fencePat).length = 4 := by decide
  have h := removeOccFuel_fuelIrrel fencePat (by decide) (f + 4) 4
    ('\n' :: fencePat) (by omega) (by omega)
  rw [h]
  decide

theorem removeOccFuel_tailSwallow :
    ∀ (fuel : Nat) (A : List Char), A.length ≤ fuel →
    removeOccFuel fencePat (fuel + 4) (A ++ '\n' :: fencePat)
      = removeOccFuel fencePat fuel A ++ ['\n'] := by
  intro fuel
  induction fuel with
  | zero =>
    intro A hA
    have hA0 : A = [] := List.eq_nil_of_length_eq_zero (Nat.le_zero.mp hA)
    subst hA0
    simp only [List.nil_append, Nat.zero_add, removeOccFuel_nil]
    exact removeOccFuel_fence_nlfence 0
  | succ fuel ih =>
    intro A hA
    cases A with
    | nil =>
      simp only [List.nil_append, removeOccFuel_nil]
      exact removeOccFuel_fence_nlfence (Nat.succ fuel)
    | cons c rest =>
      have hstep : Nat.succ fuel + 4 = Nat.succ (fuel + 4) := by omega
      have hrest : rest.length ≤ fuel := by
        simpa [List.length_cons] using hA
      by_cases hpre : isPrefixList fencePat (c :: rest) = true
      · have hpre2 : isPrefixList fencePat
            (c :: (rest ++ '\n' :: fencePat)) = true := by
          simpa using isPrefixList_append_of fencePat (c :: rest)
            ('\n' :: fencePat) hpre
        have hple : fencePat.length ≤ (c :: rest).length :=
          isPrefixList_length _ _ hpre
        rw [hstep]
        simp only [List.cons_append, removeOccFuel, List.append_eq, hpre,
          hpre2, if_true]
        rw [← List.cons_append, dropAppendOfLe fencePat.length (c :: rest)
          ('\n' :: fencePat) hple]
        refine ih _ ?_
        simp only [List.length_drop, List.length_cons]
        have hppos : (0 : Nat) < fencePat.length := by decide
        omega
      · have hpreF : isPrefixList fencePat (c :: rest) = false := by
          cases hb : isPrefixList fencePat (c :: rest) with
          | false => rfl
          | true => exact absurd hb hpre
        have hpre2F : isPrefixList fencePat
            (c :: (rest ++ '\n' :: fencePat)) = false := by
          cases hb : isPrefixList fencePat
              (c :: (rest ++ '\n' :: fencePat)) with
          | false => rfl
          | true =>
            have := isPrefixList_no_nl fencePat (c :: rest) fencePat
              (by decide) (by simpa using hb)
            exact absurd this hpre
        rw [hstep]
        simp only [List.cons_append, removeOccFuel, List.append_eq, hpreF,
          hpre2F, Bool.false_eq_true, if_false]
        rw [ih rest hrest]

theorem dropWhile_append_nil (q : Char → Bool) : ∀ (l1 l2 : List Char),
    l1.dropWhile q = [] → (l1 ++ l2).dropWhile q = l2.dropWhile q := by
  intro l1
  induction l1 with
  | nil => intro l2 _; rfl
  | cons a l1' ih =>
    intro l2 h
    cases hb : q a with
    | true =>
      simp only [List.cons_append, List.dropWhile_cons, hb, if_true] at h ⊢
      exact ih l2 h
    | false =>
      simp only [List.dropWhile_cons, hb, Bool.false_eq_true, if_false] at h
      exact absurd h (by simp)

theorem dropWhile_append_cons (q : Char → Bool) :
    ∀ (l1 l2 r : List Char) (a : Char), l1.dropWhile q = a :: r →
    (l1 ++ l2).dropWhile q = a :: (r ++ l2) := by
  intro l1
  induction l1 with
  | nil => intro l2 r a h; simp at h
  | cons b l1' ih =>
    intro l2 r a h
    cases hb : q b with
    | true =>
      simp only [List.cons_append, List.dropWhile_cons, hb, if_true] at h ⊢
      exact ih l2 r a h
    | false =>
      simp only [List.dropWhile_cons, hb, Bool.false_eq_true, if_false] at h
      injection h with h1 h2
      subst h1
      subst h2
      simp only [List.cons_append, List.dropWhile_cons, hb, Bool.false_eq_true,
        if_false]

theorem jsTrim_cons_ws (c : Char) (l : List Char) (hc : isJsWsChar c = true) :
    jsTrimChars (c :: l) = jsTrimChars l := by
  unfold jsTrimChars trimRightChars trimLeftChars
  cases hdw : l.reverse.dropWhile isJsWsChar with
  | nil =>
    rw [List.reverse_cons, dropWhile_append_nil isJsWsChar l.reverse [c] hdw]
    simp [List.dropWhile_cons, hc]
  | cons a r =>
    rw [List.reverse_cons, dropWhile_append_cons isJsWsChar l.reverse [c] r a
      hdw]
    simp only [List.reverse_cons, List.reverse_append, List.reverse_nil,
      List.nil_append, List.cons_append, List.singleton_append,
      List.dropWhile_cons, hc, if_true]

theorem jsTrim_append_ws (c : Char) (l : List Char) (hc : isJsWsChar c = true) :
    jsTrimChars (l ++ [c]) = jsTrimChars l := by
  unfold jsTrimChars trimRightChars trimLeftChars
  rw [List.reverse_append]
  simp only [List.reverse_cons, List.reverse_nil, List.nil_append,
    List.singleton_append, List.dropWhile_cons, hc, if_true]

theorem removeAll_nlfence_tail : ∀ (Q : List Char),
    removeAll fencePat ('\n' :: (Q ++ '\n' :: fencePat))
      = '\n' :: (removeAll fencePat Q ++ ['\n']) := by
  intro Q
  unfold removeAll
  have hlen : ('\n' :: (Q ++ '\n' :: fencePat)).length
      = Nat.succ (Q.length + 4) := by
    have h4 : ('\n' :: fencePat).length = 4 := by decide
    simp only [List.length_cons, List.length_append]
    simp only [List.length_cons] at h4
    omega
  rw [hlen]
  have hno : isPrefixList fencePat ('\n' :: (Q ++ '\n' :: fencePat)) = false :=
    isPrefixList_no_nl_head _ _ (by decide) (by decide)
  simp only [removeOccFuel, hno, Bool.false_eq_true, if_false]
  rw [removeOccFuel_tailSwallow Q.length Q (Nat.le_refl _)]

theorem removeAll_fenceJson_wrap (P : String) :
    removeAll fenceJsonPat (wrapFence P).data
      = '\n' :: (removeAll fenceJsonPat P.data ++ '\n' :: fencePat) := by
  have h1 : "```json\n".data = fenceJsonPat ++ ['\n'] := by decide
  have h2 : "\n```".data = '\n' :: fencePat := by decide
  have hdata : (wrapFence P).data
      = fenceJsonPat ++ ('\n' :: (P.data ++ '\n' :: fencePat)) := by
    show (("```json\n" ++ P) ++ "\n```").data = _
    rw [String.data_append, String.data_append, h1, h2]
    simp [List.append_assoc]
  rw [hdata]
  unfold removeAll
  have hlen : (fenceJsonPat ++ ('\n' :: (P.data ++ '\n' :: fencePat))).length
      = ('\n' :: (P.data ++ '\n' :: fencePat)).length + fenceJsonPat.length := by
    simp only [List.length_append]
    omega
  rw [hlen]
  rw [removeOccFuel_headEat fenceJsonPat (by decide)
    ('\n' :: (P.data ++ '\n' :: fencePat)).length
    ('\n' :: (P.data ++ '\n' :: fencePat)) (Nat.le_refl _)]
  have hlen2 : ('\n' :: (P.data ++ '\n' :: fencePat)).length
      = Nat.succ ((P.data ++ '\n' :: fencePat)).length := by
    simp [List.length_cons]
  rw [hlen2]
  have hno : isPrefixList fenceJsonPat
      ('\n' :: (P.data ++ '\n' :: fencePat)) = false :=
    isPrefixList_no_nl_head _ _ (by decide) (by decide)
  simp only [removeOccFuel, hno, Bool.false_eq_true, if_false]
  have hlen3 : (P.data ++ '\n' :: fencePat).length
      = P.data.length + ('\n' :: fencePat).length := by
    simp [List.length_append]
  rw [hlen3]
  rw [removeOccFuel_tailKeep fenceJsonPat fencePat (by decide) (by decide)
    P.data.length P.data (Nat.le_refl _)]

theorem cleanFences_wrapFence (P : String) :
    cleanFences (wrapFence P) = cleanFences P := by
  unfold cleanFences
  rw [removeAll_fenceJson_wrap P, removeAll_nlfence_tail
    (removeAll fenceJsonPat P.data)]
  rw [jsTrim_cons_ws '\n' _ (by decide), jsTrim_append_ws '\n' _ (by decide)]

theorem parseIntNum_nondigit (c : Char) (rest : List Char)
    (hm : ¬ c = '-') (hd : c.isDigit = false) :
    parseIntNum (c :: rest) = none := by
  unfold parseIntNum
  split
  · next heq =>
    injection heq with h1 h2
    simp_all
  · next =>
    have hspan : (c :: rest).span Char.isDigit = ([], c :: rest) := by
      simp [List.span_eq_take_drop, List.takeWhile_cons, hd,
        List.dropWhile_cons]
    rw [hspan]
    simp

theorem parseValue_nonstarter (f : Nat) (c : Char) (rest : List Char)
    (hws : isJsonWs c = false) (hd : c.isDigit = false)
    (hm : ¬ c = '-') (hn : ¬ c = 'n') (htc : ¬ c = 't') (hfc : ¬ c = 'f')
    (hq : ¬ c = '"') (hbk : ¬ c = '[') (hob : ¬ c = '\x7b') :
    parseValue (f + 1) (c :: rest) = none := by
  have hskip : skipJsonWs (c :: rest) = c :: rest := by
    simp [skipJsonWs, List.dropWhile_cons, hws]
  show parseValue (Nat.succ f) (c :: rest) = none
  simp only [parseValue, hskip]
  split
  · next heq => injection heq with h1 _; simp_all
  · next heq => injection heq with h1 _; simp_all
  · next heq => injection heq with h1 _; simp_all
  · next heq => injection heq with h1 _; simp_all
  · next heq => injection heq with h1 _; simp_all
  · next heq => injection heq with h1 _; simp_all
  · next =>
    rw [parseIntNum_nondigit c rest hm hd]

theorem wrapFence_data (P : String) :
    (wrapFence P).data
      = fenceJsonPat ++ ('\n' :: (P.data ++ '\n' :: fencePat)) := by
  have h1 : "```json\n".data = fenceJsonPat ++ ['\n'] := by decide
  have h2 : "\n```".data = '\n' :: fencePat := by decide
  show (("```json\n" ++ P) ++ "\n```").data = _
  rw [String.data_append, String.data_append, h1, h2]
  simp [List.append_assoc]

theorem wrapFence_ne_empty (P : String) : wrapFence P ≠ "" := by
  intro h
  have hlen : ((("```json\n" ++ P) ++ "\n```")).length = 0 := by
    simpa [wrapFence] using congrArg String.length h
  rw [String.length_append, String.length_append] at hlen
  have h8 : "```json\n".length = 8 := by decide
  have h4 : "\n```".length = 4 := by decide
  omega

theorem jsonParse_wrapFence (P : String) : jsonParse (wrapFence P) = none := by
  cases hfj : fenceJsonPat with
  | nil => exact absurd (congrArg List.length hfj) (by decide)
  | cons a p' =>
    have ha : a = fenceJsonPat.headD 'A' := by rw [hfj]; rfl
    have hws : isJsonWs a = false := by rw [ha]; decide
    have hd : a.isDigit = false := by rw [ha]; decide
    have hm : ¬ a = '-' := by rw [ha]; decide
    have hn : ¬ a = 'n' := by rw [ha]; decide
    have htc : ¬ a = 't' := by rw [ha]; decide
    have hfc : ¬ a = 'f' := by rw [ha]; decide
    have hq : ¬ a = '"' := by rw [ha]; decide
    have hbk : ¬ a = '[' := by rw [ha]; decide
    have hob : ¬ a = '\x7b' := by rw [ha]; decide
    have hdata : (wrapFence P).data
        = a :: (p' ++ ('\n' :: (P.data ++ '\n' :: fencePat))) := by
      rw [wrapFence_data, hfj]
      simp
    unfold jsonParse
    rw [hdata]
    rw [parseValue_nonstarter ((wrapFence P).length) a _ hws hd hm hn htc hfc
      hq hbk hob]

/-- C9 counterexample: a conforming article payload wrapped in code fences
makes `generateDailyHeadline` return absent, while the bare payload yields a
value — the two do not produce the same result, because only
`simulateAlternateHistory` strips fences before parsing. -/
theorem C9_counterexample :
    (generateDailyHeadline (CredState.mk (some "key")) none
        (netTextOnly (wrapFence
          "\x7b\"headline\":\"A\",\"date\":\"B\",\"content\":\"C\",\"weather\":\"D\"\x7d"))).1
        = none ∧
      ((generateDailyHeadline (CredState.mk (some "key")) none
        (netTextOnly
          "\x7b\"headline\":\"A\",\"date\":\"B\",\"content\":\"C\",\"weather\":\"D\"\x7d")).1).isSome
        = true := by
  exact ⟨rfl, rfl⟩

theorem generateImage_textIrrel (prompt ar : String) (st : CredState)
    (env : Option String) (f g : String → Outcome (Option String))
    (ir : String → Outcome ImageResponse) :
    generateImage prompt ar st env (Net.mk f ir)
      = generateImage prompt ar st env (Net.mk g ir) := rfl

/-- C9 (amended): `simulateAlternateHistory` strips surrounding code fences
before parsing, so there a fenced payload and the bare payload with the same
JSON content produce the same result; `generateDailyHeadline` performs no
stripping, so for it a fenced payload fails to parse and yields absent. -/
theorem C9_fence_scope (P event orig change : String) (st : CredState)
    (env : Option String) (net : Net) :
    cleanFences (wrapFence P) = cleanFences P ∧
      simulateAlternateHistory event orig change st env
          (netWithText net (wrapFence P))
        = simulateAlternateHistory event orig change st env
          (netWithText net P) ∧
      (∀ k, getClient st env = some k →
        (generateDailyHeadline st env (netWithText net (wrapFence P))).1
          = none) := by
  refine ⟨cleanFences_wrapFence P, ?_, ?_⟩
  · cases hc : getClient st env with
    | none => simp [simulateAlternateHistory, hc]
    | some k =>
      by_cases hP : P = ""
      · subst hP
        have hclean : cleanFences (wrapFence "") = "" := by
          rw [cleanFences_wrapFence]
          rfl
        have hjp : jsonParse "" = none := rfl
        simp [simulateAlternateHistory, hc, netWithText,
          wrapFence_ne_empty "", hclean, hjp]
      · have hw := wrapFence_ne_empty P
        simp only [simulateAlternateHistory, netWithText, hc]
        rw [if_neg hw, if_neg hP, cleanFences_wrapFence P]
        simp only [fun prompt => generateImage_textIrrel prompt "16:9" st env
          (fun _ => Outcome.ok (some (wrapFence P)))
          (fun _ => Outcome.ok (some P)) net.imageResp]
  · intro k hc
    have hp := jsonParse_wrapFence P
    have hne := wrapFence_ne_empty P
    simp [generateDailyHeadline, hc, netWithText, hne, hp]

theorem C9_witness :
    (generateDailyHeadline (CredState.mk (some "k")) none
      (netWithText netAllErr (wrapFence "7"))).1 = none :=
  (C9_fence_scope "7" "e" "o" "c" (CredState.mk (some "k")) none
    netAllErr).2.2 "k" rfl
